import Mathlib

/-!
Verification of the scoring and answer-lifecycle engine of the quiz-app
repository (src/utils.py, src/models.py, src/routes/api.py,
src/routes/player.py).

Text is modelled as `List Char` (Python `str`), machine floats used for
point values as `ℚ`, database rows as Lean structures, and fallible
parsing as `Option`.  Each namespace below embeds one component of the
source; the theorems at the end settle the specification claims.
-/

set_option autoImplicit false

namespace QuizApp

/-- Python whitespace characters removed by `str.strip()`. -/
def pyIsSpace (c : Char) : Bool :=
  c = ' ' || c = '\t' || c = '\n' || c = '\r' || c = '\x0b' || c = '\x0c'

/-- Model of Python `str.strip()`: drop whitespace from both ends. -/
def pyStrip (s : List Char) : List Char :=
  ((s.dropWhile pyIsSpace).reverse.dropWhile pyIsSpace).reverse

/-- Model of Python `str.lower()` (ASCII case folding). -/
def toLowerStr (s : List Char) : List Char :=
  s.map Char.toLower

/-- Model of Python `str.split(sep)` for a one-character separator:
`splitOnChar c s` splits `s` at every occurrence of `c`, keeping empty
pieces, so the result is always nonempty. -/
def splitOnChar (c : Char) : List Char → List (List Char)
  | [] => [[]]
  | x :: xs =>
    let r := splitOnChar c xs
    if x = c then [] :: r
    else
      match r with
      | [] => [[x]]
      | y :: ys => (x :: y) :: ys

/-- Check that `p` is a prefix of `t` (on characters). -/
def isPrefixOfList : List Char → List Char → Bool
  | [], _ => true
  | _ :: _, [] => false
  | a :: ps, b :: ts => a == b && isPrefixOfList ps ts

/-- Model of the Python substring test `p in t`. -/
def containsSub (p t : List Char) : Bool :=
  match t with
  | [] => isPrefixOfList p []
  | _ :: ts => isPrefixOfList p t || containsSub p ts

/-- Numeric value accumulated from a run of decimal digit characters. -/
def digitsToNat (s : List Char) : Nat :=
  s.foldl (fun acc c => acc * 10 + (c.toNat - 48)) 0

/-- Model of Python `float(s)` on an unsigned literal: plain digit runs
and decimal points such as `10`, `1.5`, `1.` and `.5` are accepted;
anything else (exponents, names, whitespace, underscores) is rejected
conservatively with `none`. -/
def parseUnsignedFloat (s : List Char) : Option ℚ :=
  match splitOnChar '.' s with
  | [w] =>
    if !w.isEmpty && w.all Char.isDigit then some (digitsToNat w) else none
  | [w, f] =>
    if (w.all Char.isDigit && f.all Char.isDigit) && (!w.isEmpty || !f.isEmpty) then
      some ((digitsToNat w : ℚ) + (digitsToNat f : ℚ) / ((10 : ℚ) ^ f.length))
    else none
  | _ => none

/-- Model of Python `float(s)` including an optional sign.  Parse
failure (Python `ValueError`) is `none`. -/
def parseFloat : List Char → Option ℚ
  | [] => none
  | '-' :: rest => (parseUnsignedFloat rest).map (fun q => -q)
  | '+' :: rest => parseUnsignedFloat rest
  | s => parseUnsignedFloat s

/-- Model of Python `abs()` on numbers, written so that it evaluates by
kernel reduction. -/
def pyAbs (q : ℚ) : ℚ := if q < 0 then -q else q

/-- Model of Python `int(s)` (digits with optional sign); failure is
`none`. -/
def parseInt : List Char → Option Int
  | [] => none
  | '-' :: rest =>
    if !rest.isEmpty && rest.all Char.isDigit then some (-(digitsToNat rest : Int)) else none
  | '+' :: rest =>
    if !rest.isEmpty && rest.all Char.isDigit then some (digitsToNat rest : Int) else none
  | s =>
    if !s.isEmpty && s.all Char.isDigit then some (digitsToNat s : Int) else none

namespace TextVal

/-- Model of the compiled-regex side of Python `re.search(pattern, text,
re.IGNORECASE)`: a pattern either compiles to a matcher on texts, or
fails to compile (`re.error`), which depends on the pattern alone and is
modelled as `none`. -/
def ReEngine : Type := List Char → Option (List Char → Bool)

/-- Embedding of `_match_pattern` (src/utils.py:135): run the regex
search; on `re.error` (invalid pattern) fall back to a case-insensitive
literal substring test `pattern.lower() in text.lower()`. -/
def matchPattern (re : ReEngine) (text pat : List Char) : Bool :=
  match re pat with
  | some search => search text
  | none => containsSub (toLowerStr pat) (toLowerStr text)

/-- Embedding of `validate_text_answer` (src/utils.py:77): an empty or
blank pattern accepts everything; otherwise the pattern splits on `|`
into OR groups, each of which splits on `+` into AND terms; a nonempty
group matches when every nonempty term matches the stripped answer. -/
def validate_text_answer (re : ReEngine) (user_answer pattern_string : List Char) : Bool :=
  if pyStrip pattern_string = [] then true
  else
    let ua := pyStrip user_answer
    let ps := pyStrip pattern_string
    let orGroups := (splitOnChar '|' ps).map pyStrip
    orGroups.any (fun g =>
      !g.isEmpty &&
        ((splitOnChar '+' g).map pyStrip).all (fun p => p.isEmpty || matchPattern re ua p))

/-- A regex engine on which every pattern fails to compile; used to
evaluate concrete instances whose result does not depend on the engine. -/
def reNone : ReEngine := fun _ => none

end TextVal

namespace Grader

/-- Question configuration dictionary as read by
`calculate_points_for_answer` (src/utils.py:223): the `type` tag, the
validation expression (regex pattern or math formula), base and penalty
point values, the correct option of a radio question, and the `estimate`
sub-configuration.  `estimate_correct = none` models both a missing
`correct_answer` key and one whose value `float()` cannot parse (both
paths yield 0 in the source). -/
structure QuestionConfig where
  qtype : List Char
  validation : List Char
  points : ℚ
  penalty_points : ℚ
  correct_answer : List Char
  estimate_correct : Option ℚ
  points_exact : ℚ
  points_10 : ℚ
  points_20 : ℚ
  points_30 : ℚ
deriving DecidableEq

/-- Signature of `calculate_math_score` (src/utils.py:154): the Python
`eval`-based formula interpreter, taking the formula, the submitted
answer text and the sibling answers.  Its dynamic evaluation cannot be
shallowly embedded, so it is kept as an abstract parameter; no claim
depends on its value. -/
def MathEval : Type := List Char → List Char → List (List Char × List Char) → ℚ

/-- Embedding of the `estimate` tier table of
`calculate_points_for_answer` (src/utils.py:300): the score awarded for
a given relative error `pct_diff`. -/
def estimateTier (q : QuestionConfig) (pct_diff : ℚ) : ℚ :=
  if pct_diff = 0 then q.points_exact
  else if pct_diff ≤ (10 : ℚ) / 100 then q.points_10
  else if pct_diff ≤ (20 : ℚ) / 100 then q.points_20
  else if pct_diff ≤ (30 : ℚ) / 100 then q.points_30
  else 0

/-- Embedding of the `estimate` branch of `calculate_points_for_answer`
(src/utils.py:275-310); src/routes/player.py:427-462 inlines the same
logic at submission time.  An empty submission, a missing or unparseable
correct value, or an unparseable submission scores 0; a correct value of
0 pays `points_exact` only on an exact 0; otherwise the score follows
the relative-error tiers. -/
def estimatePoints (q : QuestionConfig) (answer_text : List Char) : ℚ :=
  if answer_text = [] ∨ q.estimate_correct = none then 0
  else
    match parseFloat answer_text, q.estimate_correct with
    | some player_answer, some correct_val =>
      if correct_val = 0 then
        if player_answer = 0 then q.points_exact else 0
      else
        estimateTier q (pyAbs (player_answer - correct_val) / pyAbs correct_val)
    | _, _ => 0

/-- Wrong-answer penalty guard shared by the text/number/radio branches
of `calculate_points_for_answer`: Python
`if answer_text and answer_text.strip() and penalty_points`. -/
def penaltyApplies (q : QuestionConfig) (answer_text : List Char) : Prop :=
  answer_text ≠ [] ∧ pyStrip answer_text ≠ [] ∧ q.penalty_points ≠ 0

instance (q : QuestionConfig) (answer_text : List Char) :
    Decidable (penaltyApplies q answer_text) := by
  unfold penaltyApplies; infer_instance

/-- Embedding of `calculate_points_for_answer` (src/utils.py:223-313).
The regex engine and the math-formula evaluator are parameters. -/
def calculate_points_for_answer (re : TextVal.ReEngine) (evalMath : MathEval)
    (q : QuestionConfig) (answer_text : List Char)
    (other_answers : List (List Char × List Char)) : ℚ :=
  if q.qtype = "text".toList then
    if TextVal.validate_text_answer re answer_text q.validation then q.points
    else if penaltyApplies q answer_text then -q.penalty_points
    else 0
  else if q.qtype = "number".toList then
    if q.validation ≠ [] then evalMath q.validation answer_text other_answers
    else
      match parseFloat answer_text with
      | some _ => q.points
      | none => if penaltyApplies q answer_text then -q.penalty_points else 0
  else if q.qtype = "radio".toList then
    if toLowerStr (pyStrip answer_text) = toLowerStr (pyStrip q.correct_answer) then q.points
    else if penaltyApplies q answer_text then -q.penalty_points
    else 0
  else if q.qtype = "estimate".toList then
    estimatePoints q answer_text
  else 0

end Grader

namespace Betting

/-- Parsed stored bet, i.e. the fields read from
`json.loads(answer.answer_text)` in `set_betting_results`
(src/routes/api.py:1589-1591). -/
structure Bet where
  bet_amount : ℚ
  choice : List Char
deriving DecidableEq

/-- An `Answer` row as seen by the betting resolver.  `payload = none`
models stored text on which the `json.loads`/field access of
src/routes/api.py:1588-1591 raises (`json.JSONDecodeError`, `KeyError`
or `TypeError`), which the source catches and skips. -/
structure BetAnswer where
  payload : Option Bet
  points : ℚ
deriving DecidableEq

/-- Embedding of the per-answer body of the settlement loop of
`set_betting_results` (src/routes/api.py:1587-1617): if the choice
appears in the finish order at a place with a configured multiplier, the
points become `bet * multiplier - bet`, floored at 0; if it placed
without a multiplier, or did not place, the points become `-bet`;
unparseable rows are left untouched. -/
def settleAnswer (multipliers : List ℚ) (results : List (List Char)) (a : BetAnswer) : BetAnswer :=
  match a.payload with
  | none => a
  | some bet =>
    let pts :=
      if bet.choice ∈ results then
        let place := results.indexOf bet.choice
        if h : place < multipliers.length then
          let m := multipliers.get ⟨place, h⟩
          let p := bet.bet_amount * m - bet.bet_amount
          if p < 0 then 0 else p
        else -bet.bet_amount
      else -bet.bet_amount
    { a with points := pts }

/-- Embedding of the whole settlement pass of `set_betting_results`
(src/routes/api.py:1584-1619) over every stored answer of the betting
question. -/
def settleAnswers (multipliers : List ℚ) (results : List (List Char))
    (answers : List BetAnswer) : List BetAnswer :=
  answers.map (settleAnswer multipliers results)

end Betting

namespace Dedup

/-- The fields of a question dictionary used by
`apply_round_deduplication` (src/utils.py:316): `q.get('id', '')` and
`q.get('type', 'text')`. -/
structure DQuestion where
  id : List Char
  qtype : List Char
deriving DecidableEq

/-- The fields of an `Answer` row used by the dedup pass.  A SQL `NULL`
`answer_text` and the empty string are merged into `[]`: both are falsy
in the `not answer.answer_text` guard of src/utils.py:338. -/
structure DAnswer where
  question_id : List Char
  answer_text : List Char
  points : ℚ
deriving DecidableEq

/-- Lookup of `answer_by_qid.get(q_id)` (src/utils.py:330,337).  The
dict maps each `question_id` to a single row; under the data-model
invariant of at most one live Answer per (team, round, question) the
first match is that row. -/
def findAnswer (answers : List DAnswer) (qid : List Char) : Option DAnswer :=
  answers.find? (fun a => a.question_id == qid)

/-- Mutation `answer.points = 0` (src/utils.py:342) of the row the dict
holds for `qid`, leaving all other rows intact. -/
def zeroFirst : List DAnswer → List Char → List DAnswer
  | [], _ => []
  | a :: rest, qid =>
    if a.question_id == qid then { a with points := 0 } :: rest
    else a :: zeroFirst rest qid

/-- Normalisation `answer.answer_text.strip().lower()`
(src/utils.py:340). -/
def normText (s : List Char) : List Char := toLowerStr (pyStrip s)

/-- Embedding of the question loop of `apply_round_deduplication`
(src/utils.py:332-344), threading the `seen_texts` set and the mutable
answer rows. -/
def dedupGo : List DQuestion → List (List Char) → List DAnswer → List DAnswer
  | [], _, answers => answers
  | q :: qs, seen, answers =>
    if q.qtype ≠ "text".toList then dedupGo qs seen answers
    else
      match findAnswer answers q.id with
      | none => dedupGo qs seen answers
      | some a =>
        if a.answer_text = [] ∨ a.points ≤ 0 then dedupGo qs seen answers
        else if normText a.answer_text ∈ seen then dedupGo qs seen (zeroFirst answers q.id)
        else dedupGo qs (normText a.answer_text :: seen) answers

/-- Embedding of `apply_round_deduplication` (src/utils.py:316-344) for
one team's answers in one round. -/
def apply_round_deduplication (questions : List DQuestion) (answers : List DAnswer) : List DAnswer :=
  dedupGo questions [] answers

/-- Demotion relation between an answer row and its image under the
pass: the id and text never change, and the points either stay or drop
to 0 from a positive value. -/
def DemRel (a b : DAnswer) : Prop :=
  b.question_id = a.question_id ∧ b.answer_text = a.answer_text ∧
    (b.points = a.points ∨ (b.points = 0 ∧ 0 < a.points))

end Dedup

namespace Agg

/-- The scoring fields of an `Answer` row (src/models.py:214-216). -/
structure AnswerScore where
  points : ℚ
  bonus_points : ℚ
  penalty_points : ℚ
deriving DecidableEq

/-- The fields of a `Team` row used by the score aggregator
(src/models.py:150-155) together with its answers. -/
structure TeamRec where
  answers : List AnswerScore
  custom_scores : List (List Char × ℚ)
  tab_away_seconds : Nat
deriving DecidableEq

/-- Embedding of `Team.tab_penalty_points` (src/models.py:188-191):
1 point per full 10 seconds away, by integer (floor) division. -/
def tab_penalty_points (t : TeamRec) : Nat :=
  t.tab_away_seconds / 10

/-- Embedding of the per-team total of `get_leaderboard`
(src/routes/api.py:553-574): the three coalesced SQL sums over the
team's answers, plus the custom score values, minus the tab penalty. -/
def leaderboardTotal (t : TeamRec) : ℚ :=
  let total_points :=
    (t.answers.map (fun a => a.points)).sum +
      (t.answers.map (fun a => a.bonus_points)).sum -
      (t.answers.map (fun a => a.penalty_points)).sum
  let custom_total := (t.custom_scores.map (fun kv => kv.2)).sum
  let tab_penalty := tab_penalty_points t
  total_points + custom_total - tab_penalty

end Agg

namespace Visibility

/-- The fields of a `Round` row used by the visibility gate. -/
structure VRound where
  id : Nat
  parent_id : Option Nat
  is_open : Bool
deriving DecidableEq

/-- Check of `Round.query.filter_by(parent_id=r.id).first() is not None`
(src/routes/api.py:525, src/routes/player.py:47) against the game's
round list. -/
def hasChildren (rounds : List VRound) (r : VRound) : Bool :=
  rounds.any (fun c => c.parent_id == some r.id)

/-- Selection of the final leaf round (src/routes/api.py:519-528,
src/routes/player.py:41-50): the input list is the game's rounds sorted
by `order` descending, and the first one without children is taken. -/
def finalRound (rounds : List VRound) : Option VRound :=
  rounds.find? (fun r => !hasChildren rounds r)

/-- Embedding of the hiding rule of the API leaderboard
`get_leaderboard` (src/routes/api.py:511-542).  `hasAnswer team round`
models `Answer.query.filter_by(team_id=..., round_id=...).first() is not
None`; `team? = none` is an absent `team_id` query parameter (admin or
anonymous view). -/
def scores_hidden_api (is_finished : Bool) (rounds : List VRound)
    (hasAnswer : Nat → Nat → Bool) (team? : Option Nat) : Bool :=
  if is_finished then false
  else
    match team? with
    | none => false
    | some tid =>
      match finalRound rounds with
      | some fr => hasAnswer tid fr.id
      | none => false

/-- Embedding of the hiding rule of the player scoreboard `scoreboard`
(src/routes/player.py:32-64), which additionally requires the final leaf
round to be closed before hiding. -/
def scoreboard_hidden (is_finished : Bool) (rounds : List VRound)
    (hasAnswer : Nat → Nat → Bool) (team? : Option Nat) : Bool :=
  if is_finished then false
  else
    match team? with
    | none => false
    | some tid =>
      match finalRound rounds with
      | some fr => !fr.is_open && hasAnswer tid fr.id
      | none => false

end Visibility

namespace Nav

/-- The fields of a `Round` row used by the round navigator. -/
structure NRound where
  id : Nat
  parent_id : Option Nat
  is_open : Bool
deriving DecidableEq

/-- Children check `round_obj.get_children()` (src/routes/player.py:156)
against the game's full round list. -/
def hasChildrenN (rounds : List NRound) (r : NRound) : Bool :=
  rounds.any (fun c => c.parent_id == some r.id)

/-- The set `submitted_round_ids` of `next_questions`
(src/routes/player.py:142-145): ids of the rounds against which the team
has at least one Answer row; `answered` models the per-round Answer
query. -/
def submittedRoundIds (rounds : List NRound) (answered : Nat → Bool) : List Nat :=
  ((rounds.filter (fun r => answered r.id)).map (fun r => r.id)).dedup

/-- Result of the navigator: the pause screen, a destination round, the
game-over page, or the waiting page. -/
inductive Outcome where
  | paused
  | dest (id : Nat)
  | gameOver
  | waiting
deriving DecidableEq

/-- Embedding of the routing decision of `next_questions`
(src/routes/player.py:112-174): skip container rounds; go to the first
open round not yet submitted or with a resubmit permission; otherwise
game over exactly when every round is closed, the number of submitted
round ids reaches the number of rounds, and at least one round exists;
otherwise wait.  The input list carries the ordering of the source
query. -/
def nextQuestions (pause_mode : Bool) (rounds : List NRound)
    (answered resub : Nat → Bool) : Outcome :=
  if pause_mode then .paused
  else
    let submitted := submittedRoundIds rounds answered
    match rounds.find? (fun r =>
        !hasChildrenN rounds r && r.is_open &&
          (!submitted.contains r.id || resub r.id)) with
    | some r => .dest r.id
    | none =>
      if rounds.all (fun r => !r.is_open) ∧
          rounds.length ≤ submitted.length ∧ 0 < rounds.length then
        .gameOver
      else .waiting

/-- The game-over condition as the specification claim states it: every
leaf round closed and submitted by the team, container rounds exempt. -/
def leafGameOverCond (rounds : List NRound) (answered : Nat → Bool) : Bool :=
  rounds.all (fun r => hasChildrenN rounds r || (!r.is_open && answered r.id))

end Nav

namespace Submit

/-- Stored value of `Answer.answer_text` as written by `submit_round`
(src/routes/player.py:332-487): plain stripped text, the JSON-serialised
bet dictionary, or the JSON-serialised ordering list. -/
inductive Payload where
  | text (s : List Char)
  | bet (amount : Int) (choice : List Char)
  | ordering (items : List (List Char))
deriving DecidableEq

/-- An `Answer` row (src/models.py:197-217) with the fields written by
the submission handler. -/
structure AnswerRow where
  team_id : Nat
  round_id : Nat
  question_id : List Char
  answer_text : Payload
  points : ℚ
deriving DecidableEq

/-- A `ResubmitPermission` row (src/models.py:228-239). -/
structure Perm where
  team_id : Nat
  round_id : Nat
deriving DecidableEq

/-- The database state touched by one submission: all answer rows and
all resubmit permissions. -/
structure SState where
  answers : List AnswerRow
  perms : List Perm
deriving DecidableEq

/-- A question as read by `submit_round`: its id, the shared grading
configuration, and the betting/ordering sub-configuration. -/
structure SQuestion where
  id : List Char
  cfg : Grader.QuestionConfig
  max_bet : Int
  ordering_items : List (List Char)
  ordering_points_exact : ℚ
  ordering_points_adjacent : ℚ
deriving DecidableEq

/-- The `Round` fields used by `submit_round`. -/
structure SRound where
  id : Nat
  game_id : Nat
  is_open : Bool
  questions : List SQuestion
deriving DecidableEq

/-- The `Team` fields used by `submit_round`. -/
structure STeam where
  id : Nat
  game_id : Nat
deriving DecidableEq

/-- Model of `request.form`: `form name` is the submitted value of the
field, or `none` when the field is absent (Python `form.get` then falls
back to its default). -/
def Form : Type := List Char → Option (List Char)

/-- The form field name `ordering_<qid>_<i>` (src/routes/player.py:408). -/
def orderingKey (qid : List Char) (i : Nat) : List Char :=
  "ordering_".toList ++ qid ++ "_".toList ++ Nat.toDigits 10 i

/-- Per-slot score of the ordering loop (src/routes/player.py:416-424):
exact position pays `points_exact`, off by one pays `points_adjacent`,
anything else (including items outside the correct set and empty slots)
pays 0. -/
def orderingSlotScore (items : List (List Char)) (pe pa : ℚ)
    (player_pos : Nat) (player_item : List Char) : ℚ :=
  if player_item ≠ [] ∧ player_item ∈ items then
    let correct_pos := items.indexOf player_item
    let distance := ((player_pos : Int) - (correct_pos : Int)).natAbs
    if distance = 0 then pe
    else if distance = 1 then pa
    else 0
  else 0

/-- Total ordering score: sum of the slot scores over the submitted
sequence. -/
def orderingScore (items : List (List Char)) (pe pa : ℚ)
    (player_order : List (List Char)) : ℚ :=
  (player_order.enum.map (fun s => orderingSlotScore items pe pa s.1 s.2)).sum

/-- Grading of one question inside the `submit_round` loop
(src/routes/player.py:371-469), producing the stored payload, the
points, and the updated `all_answers` dictionary (which accumulates only
in the generic branch).  The betting branch clamps the stake into
`[1, max_bet]` and records `-stake`; parse failure of the stake falls
back to 1 unclamped, as in the source. -/
def gradeQuestion (re : TextVal.ReEngine) (evalMath : Grader.MathEval) (form : Form)
    (allAns : List (List Char × List Char)) (q : SQuestion) :
    Payload × ℚ × List (List Char × List Char) :=
  if q.cfg.qtype = "betting".toList then
    let raw := (form ("bet_amount_".toList ++ q.id)).getD ("1".toList)
    let choice := (form ("bet_choice_".toList ++ q.id)).getD []
    let amount : Int :=
      match parseInt raw with
      | some n => max 1 (min n q.max_bet)
      | none => 1
    (.bet amount choice, -(amount : ℚ), allAns)
  else if q.cfg.qtype = "ordering".toList then
    let player_order :=
      (List.range q.ordering_items.length).map
        (fun i => (form (orderingKey q.id i)).getD [])
    (.ordering player_order,
      orderingScore q.ordering_items q.ordering_points_exact q.ordering_points_adjacent
        player_order,
      allAns)
  else if q.cfg.qtype = "estimate".toList then
    let answer_text := pyStrip ((form ("answer_".toList ++ q.id)).getD [])
    (.text answer_text, Grader.estimatePoints q.cfg answer_text, allAns)
  else
    let answer_text := pyStrip ((form ("answer_".toList ++ q.id)).getD [])
    let allAns1 := allAns ++ [(q.id, answer_text)]
    (.text answer_text,
      Grader.calculate_points_for_answer re evalMath q.cfg answer_text allAns1,
      allAns1)

/-- The question loop of `submit_round`, threading `all_answers` and
collecting for each question its id, stored payload and points. -/
def gradeLoop (re : TextVal.ReEngine) (evalMath : Grader.MathEval) (form : Form) :
    List SQuestion → List (List Char × List Char) → List (List Char × Payload × ℚ)
  | [], _ => []
  | q :: qs, allAns =>
    let r := gradeQuestion re evalMath form allAns q
    (q.id, r.1, r.2.1) :: gradeLoop re evalMath form qs r.2.2

/-- Persisting one graded question (src/routes/player.py:471-487):
update the existing row of `existing_by_question` when the team had
already answered this question in this round, otherwise add a new row. -/
def upsertRow (tid rid : Nat) (existingQids : List (List Char))
    (rows : List AnswerRow) (g : List Char × Payload × ℚ) : List AnswerRow :=
  if g.1 ∈ existingQids then
    rows.map (fun r =>
      if r.team_id == tid && r.round_id == rid && r.question_id == g.1 then
        { r with answer_text := g.2.1, points := g.2.2 }
      else r)
  else rows ++ [⟨tid, rid, g.1, g.2.1, g.2.2⟩]

/-- Result of a submission attempt. -/
inductive SubmitOutcome where
  | notRegistered
  | roundClosed
  | alreadySubmitted
  | ok
deriving DecidableEq

/-- Embedding of `submit_round` (src/routes/player.py:332-515): reject a
team of another game, then reject when the round is closed, then reject
a resubmission without permission; otherwise grade every question,
upsert the answer rows and consume the permission in one commit. -/
def submit_round (re : TextVal.ReEngine) (evalMath : Grader.MathEval)
    (round : SRound) (team : STeam) (form : Form) (st : SState) :
    SubmitOutcome × SState :=
  if team.game_id ≠ round.game_id then (.notRegistered, st)
  else if !round.is_open then (.roundClosed, st)
  else
    let existing := st.answers.filter
      (fun a => a.team_id == team.id && a.round_id == round.id)
    let hasPerm := st.perms.any
      (fun p => p.team_id == team.id && p.round_id == round.id)
    if !existing.isEmpty && !hasPerm then (.alreadySubmitted, st)
    else
      let graded := gradeLoop re evalMath form round.questions []
      let answers1 := graded.foldl
        (upsertRow team.id round.id (existing.map (fun a => a.question_id))) st.answers
      let perms1 := st.perms.filter
        (fun p => !(p.team_id == team.id && p.round_id == round.id))
      (.ok, ⟨answers1, perms1⟩)

end Submit

/-! Concrete fixtures used to evaluate the embeddings on explicit
inputs. -/

/-- A math evaluator returning 0; concrete stand-in for the abstract
`calculate_math_score` parameter where its value is irrelevant. -/
def evalMathZero : Grader.MathEval := fun _ _ _ => 0

/-- Multipliers `[3, 2, 1]` of the betting scenario. -/
def fxMult : List ℚ := [3, 2, 1]

/-- Finish order of the betting scenario. -/
def fxResults : List (List Char) := ["Fox".toList, "Hare".toList, "Owl".toList]

/-- A stored bet of 2 on Fox, with the provisional `-2` stake. -/
def fxBetAnswer : Betting.BetAnswer := ⟨some ⟨2, "Fox".toList⟩, -2⟩

/-- A game with a single leaf round (id 1) that is still open. -/
def fxVRounds : List Visibility.VRound := [⟨1, none, true⟩]

/-- Team 7 has submitted an answer to round 1. -/
def fxHasAnswer : Nat → Nat → Bool := fun t r => t == 7 && r == 1

/-- A closed container round (id 1) with one closed child leaf round
(id 2). -/
def fxNavRounds : List Nav.NRound := [⟨1, none, false⟩, ⟨2, some 1, false⟩]

/-- The team has answered only the leaf round (id 2). -/
def fxNavAnswered : Nat → Bool := fun id => id == 2

/-- No resubmit permission on any round. -/
def fxNavResub : Nat → Bool := fun _ => false

/-- An estimate configuration whose 10%-tier pays more than its exact
tier (correct value 100, tiers 1/4/2/1). -/
def fxEstInverted : Grader.QuestionConfig :=
  ⟨"estimate".toList, [], 1, 0, [], some 100, 1, 4, 2, 1⟩

/-- An estimate configuration with the default descending tiers
(correct value 100, tiers 4/3/2/1). -/
def fxEstDefault : Grader.QuestionConfig :=
  ⟨"estimate".toList, [], 1, 0, [], some 100, 4, 3, 2, 1⟩

/-- A closed round (id 1, game 1) with no questions. -/
def fxClosedRound : Submit.SRound := ⟨1, 1, false, []⟩

/-- A team (id 5) of game 1. -/
def fxTeam : Submit.STeam := ⟨5, 1⟩

/-- An empty submission form. -/
def fxForm : Submit.Form := fun _ => none

/-- A state holding one prior answer row of another round and a resubmit
permission for team 5 on round 1. -/
def fxState : Submit.SState :=
  ⟨[⟨5, 2, "q1".toList, .text ("x".toList), 1⟩], [⟨5, 1⟩]⟩

end QuizApp

namespace QuizApp

/-! Helper lemmas shared by the claim theorems. -/

/-- Flooring a value at 0 with a negativity test equals `max` with 0. -/
theorem ite_neg_zero_eq_max (p : ℚ) : (if p < 0 then 0 else p) = max p 0 := by
  rcases lt_or_ge p 0 with h | h
  · simp [h, max_eq_right h.le]
  · simp [not_lt.mpr h, max_eq_left h]

/-- Settlement never changes the stored bet payload. -/
theorem settleAnswer_payload (mult : List ℚ) (results : List (List Char))
    (a : Betting.BetAnswer) :
    (Betting.settleAnswer mult results a).payload = a.payload := by
  cases h : a.payload <;> simp [Betting.settleAnswer, h]

/-- Settling an already-settled answer coincides with settling the
original answer: the result depends only on the payload, which
settlement preserves. -/
theorem settleAnswer_comp (mult : List ℚ) (r1 r2 : List (List Char))
    (a : Betting.BetAnswer) :
    Betting.settleAnswer mult r2 (Betting.settleAnswer mult r1 a) =
      Betting.settleAnswer mult r2 a := by
  cases h : a.payload <;> simp [Betting.settleAnswer, h]

/-- Pointwise lifting of `settleAnswer_comp` to the whole answer set. -/
theorem settleAnswers_comp (mult : List ℚ) (r1 r2 : List (List Char))
    (answers : List Betting.BetAnswer) :
    Betting.settleAnswers mult r2 (Betting.settleAnswers mult r1 answers) =
      Betting.settleAnswers mult r2 answers := by
  induction answers with
  | nil => rfl
  | cons a rest ih =>
    simp only [Betting.settleAnswers, List.map_cons] at *
    exact congrArg₂ List.cons (settleAnswer_comp mult r1 r2 a) ih

/-- Under descending tier values, every tier score is at most the exact
score. -/
theorem estimateTier_le_exact (q : Grader.QuestionConfig)
    (h30 : q.points_30 ≤ q.points_20) (h20 : q.points_20 ≤ q.points_10)
    (h10 : q.points_10 ≤ q.points_exact) (h0 : 0 ≤ q.points_30) (d : ℚ) :
    Grader.estimateTier q d ≤ q.points_exact := by
  unfold Grader.estimateTier
  split_ifs <;> linarith

/-- Under descending tier values, the tier score is non-increasing over
nonnegative relative errors. -/
theorem estimateTier_mono (q : Grader.QuestionConfig)
    (h30 : q.points_30 ≤ q.points_20) (h20 : q.points_20 ≤ q.points_10)
    (h10 : q.points_10 ≤ q.points_exact) (h0 : 0 ≤ q.points_30)
    (d1 d2 : ℚ) (hd1 : 0 ≤ d1) (hle : d1 ≤ d2) :
    Grader.estimateTier q d2 ≤ Grader.estimateTier q d1 := by
  rcases eq_or_lt_of_le hd1 with h | h
  · have hd : Grader.estimateTier q d1 = q.points_exact := by
      rw [← h]; simp [Grader.estimateTier]
    rw [hd]
    exact estimateTier_le_exact q h30 h20 h10 h0 d2
  · unfold Grader.estimateTier
    rw [if_neg h.ne', if_neg (h.trans_le hle).ne']
    split_ifs <;> linarith

/-- Beyond a relative error of 30% the tier score is 0. -/
theorem estimateTier_beyond (q : Grader.QuestionConfig) (d : ℚ)
    (h : (30 : ℚ) / 100 < d) : Grader.estimateTier q d = 0 := by
  unfold Grader.estimateTier
  split_ifs <;> first | rfl | linarith

/-- The empty text never parses as a float. -/
theorem parseFloat_nil : parseFloat [] = none := rfl

/-- The executable absolute value agrees with the lattice one. -/
theorem pyAbs_eq_abs (q : ℚ) : pyAbs q = |q| := by
  unfold pyAbs
  rcases lt_or_ge q 0 with h | h
  · rw [if_pos h, abs_of_neg h]
  · rw [if_neg (not_lt.mpr h), abs_of_nonneg h]

/-- On a parseable nonempty submission with a nonzero correct value, the
estimate score is the tier score of the relative error. -/
theorem estimatePoints_eq_tier (q : Grader.QuestionConfig) (c x : ℚ)
    (hq : q.estimate_correct = some c) (hc : c ≠ 0)
    (sx : List Char) (hx : parseFloat sx = some x) :
    Grader.estimatePoints q sx = Grader.estimateTier q (|x - c| / |c|) := by
  have hsx : sx ≠ [] := by
    intro h; rw [h, parseFloat_nil] at hx; exact Option.noConfusion hx
  simp [Grader.estimatePoints, hsx, hq, hx, hc, pyAbs_eq_abs]

/-- With pairwise-distinct round ids the dedup of the submitted-id list
is redundant. -/
theorem submittedRoundIds_eq (rounds : List Nav.NRound) (answered : Nat → Bool)
    (hnd : (rounds.map (fun r => r.id)).Nodup) :
    Nav.submittedRoundIds rounds answered =
      (rounds.filter (fun r => answered r.id)).map (fun r => r.id) := by
  unfold Nav.submittedRoundIds
  exact List.Nodup.dedup (((rounds.filter_sublist).map (fun r => r.id)).nodup hnd)

/-- With pairwise-distinct round ids, the submitted-id count reaches the
round count exactly when the team has answered every round. -/
theorem submittedRoundIds_full (rounds : List Nav.NRound) (answered : Nat → Bool)
    (hnd : (rounds.map (fun r => r.id)).Nodup) :
    (rounds.length ≤ (Nav.submittedRoundIds rounds answered).length) ↔
      ∀ r ∈ rounds, answered r.id = true := by
  rw [submittedRoundIds_eq rounds answered hnd, List.length_map]
  constructor
  · intro h
    exact List.filter_length_eq_length.mp
      (le_antisymm (List.length_filter_le _ _) h)
  · intro h
    rw [List.filter_length_eq_length.mpr h]

/-! Lemmas on the deduplication pass. -/

/-- Unfolding equation of one step of the dedup loop. -/
theorem dedupGo_cons (q : Dedup.DQuestion) (qs : List Dedup.DQuestion)
    (seen : List (List Char)) (ans : List Dedup.DAnswer) :
    Dedup.dedupGo (q :: qs) seen ans =
      if q.qtype ≠ "text".toList then Dedup.dedupGo qs seen ans
      else
        match Dedup.findAnswer ans q.id with
        | none => Dedup.dedupGo qs seen ans
        | some a =>
          if a.answer_text = [] ∨ a.points ≤ 0 then Dedup.dedupGo qs seen ans
          else if Dedup.normText a.answer_text ∈ seen then
            Dedup.dedupGo qs seen (Dedup.zeroFirst ans q.id)
          else Dedup.dedupGo qs (Dedup.normText a.answer_text :: seen) ans := rfl

/-- A non-text question is skipped. -/
theorem dedupGo_cons_nontext {q : Dedup.DQuestion} (qs : List Dedup.DQuestion)
    (seen : List (List Char)) (ans : List Dedup.DAnswer)
    (ht : q.qtype ≠ "text".toList) :
    Dedup.dedupGo (q :: qs) seen ans = Dedup.dedupGo qs seen ans := by
  rw [dedupGo_cons, if_pos ht]

/-- A question with no stored answer is skipped. -/
theorem dedupGo_cons_none {q : Dedup.DQuestion} (qs : List Dedup.DQuestion)
    (seen : List (List Char)) (ans : List Dedup.DAnswer)
    (ht : q.qtype = "text".toList) (hf : Dedup.findAnswer ans q.id = none) :
    Dedup.dedupGo (q :: qs) seen ans = Dedup.dedupGo qs seen ans := by
  rw [dedupGo_cons, if_neg (by simp [ht]), hf]

/-- A question whose answer has no text or nonpositive points is
skipped. -/
theorem dedupGo_cons_inactive {q : Dedup.DQuestion} (qs : List Dedup.DQuestion)
    (seen : List (List Char)) (ans : List Dedup.DAnswer) {a : Dedup.DAnswer}
    (ht : q.qtype = "text".toList) (hf : Dedup.findAnswer ans q.id = some a)
    (hskip : a.answer_text = [] ∨ a.points ≤ 0) :
    Dedup.dedupGo (q :: qs) seen ans = Dedup.dedupGo qs seen ans := by
  rw [dedupGo_cons, if_neg (by simp [ht]), hf]
  exact if_pos hskip

/-- A duplicate positive answer is zeroed. -/
theorem dedupGo_cons_dup {q : Dedup.DQuestion} (qs : List Dedup.DQuestion)
    (seen : List (List Char)) (ans : List Dedup.DAnswer) {a : Dedup.DAnswer}
    (ht : q.qtype = "text".toList) (hf : Dedup.findAnswer ans q.id = some a)
    (hskip : ¬(a.answer_text = [] ∨ a.points ≤ 0))
    (hm : Dedup.normText a.answer_text ∈ seen) :
    Dedup.dedupGo (q :: qs) seen ans =
      Dedup.dedupGo qs seen (Dedup.zeroFirst ans q.id) := by
  rw [dedupGo_cons, if_neg (by simp [ht]), hf]
  exact (if_neg hskip).trans (if_pos hm)

/-- A fresh positive answer is recorded as seen. -/
theorem dedupGo_cons_fresh {q : Dedup.DQuestion} (qs : List Dedup.DQuestion)
    (seen : List (List Char)) (ans : List Dedup.DAnswer) {a : Dedup.DAnswer}
    (ht : q.qtype = "text".toList) (hf : Dedup.findAnswer ans q.id = some a)
    (hskip : ¬(a.answer_text = [] ∨ a.points ≤ 0))
    (hm : Dedup.normText a.answer_text ∉ seen) :
    Dedup.dedupGo (q :: qs) seen ans =
      Dedup.dedupGo qs (Dedup.normText a.answer_text :: seen) ans := by
  rw [dedupGo_cons, if_neg (by simp [ht]), hf]
  exact (if_neg hskip).trans (if_neg hm)

/-- The demotion relation is reflexive. -/
theorem demRel_refl (a : Dedup.DAnswer) : Dedup.DemRel a a :=
  ⟨rfl, rfl, Or.inl rfl⟩

/-- The demotion relation is transitive. -/
theorem demRel_trans {a b c : Dedup.DAnswer} (hab : Dedup.DemRel a b)
    (hbc : Dedup.DemRel b c) : Dedup.DemRel a c := by
  obtain ⟨h1, h2, h3⟩ := hab
  obtain ⟨g1, g2, g3⟩ := hbc
  refine ⟨g1.trans h1, g2.trans h2, ?_⟩
  rcases h3 with h3 | ⟨h3, h4⟩ <;> rcases g3 with g3 | ⟨g3, g4⟩
  · exact Or.inl (g3.trans h3)
  · exact Or.inr ⟨g3, h3 ▸ g4⟩
  · exact Or.inr ⟨g3.trans h3, h4⟩
  · exact Or.inr ⟨g3, h4⟩

/-- Demotion preserves the inactive (skipped) condition. -/
theorem demRel_inactive {a b : Dedup.DAnswer} (hab : Dedup.DemRel a b)
    (h : a.answer_text = [] ∨ a.points ≤ 0) :
    b.answer_text = [] ∨ b.points ≤ 0 := by
  obtain ⟨-, h2, h3⟩ := hab
  rcases h with h | h
  · exact Or.inl (h2.trans h)
  · rcases h3 with h3 | ⟨h3, h4⟩
    · exact Or.inr (h3.trans_le h)
    · exact absurd (h4.trans_le h) (lt_irrefl 0)

/-- Pointwise transitivity of the lifted demotion relation. -/
theorem forall2_demRel_trans :
    ∀ {l₁ l₂ l₃ : List Dedup.DAnswer}, List.Forall₂ Dedup.DemRel l₁ l₂ →
      List.Forall₂ Dedup.DemRel l₂ l₃ → List.Forall₂ Dedup.DemRel l₁ l₃ := by
  intro l₁ l₂ l₃ h12
  induction h12 generalizing l₃ with
  | nil => intro h; exact h
  | cons hab h ih =>
    intro h23
    cases h23 with
    | cons hbc h2 => exact List.Forall₂.cons (demRel_trans hab hbc) (ih h2)

/-- Unfolding equation of the lookup on a cons cell. -/
theorem findAnswer_cons (x : Dedup.DAnswer) (rest : List Dedup.DAnswer)
    (qid : List Char) :
    Dedup.findAnswer (x :: rest) qid =
      if (x.question_id == qid) = true then some x
      else Dedup.findAnswer rest qid := by
  unfold Dedup.findAnswer
  cases h : (x.question_id == qid) <;> simp [List.find?_cons, h]

/-- Lookup transported along the lifted demotion relation. -/
theorem findAnswer_rel {l₁ l₂ : List Dedup.DAnswer}
    (h : List.Forall₂ Dedup.DemRel l₁ l₂) (qid : List Char) :
    (Dedup.findAnswer l₁ qid = none ∧ Dedup.findAnswer l₂ qid = none) ∨
      ∃ a b, Dedup.findAnswer l₁ qid = some a ∧ Dedup.findAnswer l₂ qid = some b ∧
        Dedup.DemRel a b := by
  induction h with
  | nil => exact Or.inl ⟨rfl, rfl⟩
  | cons hab h ih =>
    rename_i a b l₁ l₂
    rw [findAnswer_cons, findAnswer_cons, hab.1]
    by_cases hq : (a.question_id == qid) = true
    · rw [if_pos hq, if_pos hq]
      exact Or.inr ⟨a, b, rfl, rfl, hab⟩
    · rw [if_neg hq, if_neg hq]
      exact ih

/-- Forward direction of `findAnswer_rel`. -/
theorem findAnswer_rel_fwd {l₁ l₂ : List Dedup.DAnswer}
    (h : List.Forall₂ Dedup.DemRel l₁ l₂) {qid : List Char} {a : Dedup.DAnswer}
    (ha : Dedup.findAnswer l₁ qid = some a) :
    ∃ b, Dedup.findAnswer l₂ qid = some b ∧ Dedup.DemRel a b := by
  rcases findAnswer_rel h qid with ⟨h1, -⟩ | ⟨a2, b2, h1, h2, hr⟩
  · rw [ha] at h1; exact Option.noConfusion h1
  · rw [ha] at h1
    obtain rfl := Option.some.inj h1
    exact ⟨b2, h2, hr⟩

/-- Backward direction of `findAnswer_rel`. -/
theorem findAnswer_rel_back {l₁ l₂ : List Dedup.DAnswer}
    (h : List.Forall₂ Dedup.DemRel l₁ l₂) {qid : List Char} {b : Dedup.DAnswer}
    (hb : Dedup.findAnswer l₂ qid = some b) :
    ∃ a, Dedup.findAnswer l₁ qid = some a ∧ Dedup.DemRel a b := by
  rcases findAnswer_rel h qid with ⟨-, h2⟩ | ⟨a2, b2, h1, h2, hr⟩
  · rw [hb] at h2; exact Option.noConfusion h2
  · rw [hb] at h2
    obtain rfl := Option.some.inj h2
    exact ⟨a2, h1, hr⟩

/-- Lookup of the lone zeroed entry. -/
theorem findAnswer_zeroFirst_self {l : List Dedup.DAnswer} {qid : List Char}
    {a : Dedup.DAnswer} (hf : Dedup.findAnswer l qid = some a) :
    Dedup.findAnswer (Dedup.zeroFirst l qid) qid = some { a with points := 0 } := by
  induction l with
  | nil => exact Option.noConfusion hf
  | cons x rest ih =>
    rw [findAnswer_cons] at hf
    by_cases hq : (x.question_id == qid) = true
    · rw [if_pos hq] at hf
      obtain rfl := Option.some.inj hf
      rw [Dedup.zeroFirst, if_pos hq, findAnswer_cons, if_pos hq]
    · rw [if_neg hq] at hf
      rw [Dedup.zeroFirst, if_neg hq, findAnswer_cons, if_neg hq]
      exact ih hf

/-- Zeroing the looked-up positive row is a demotion. -/
theorem zeroFirst_demRel (l : List Dedup.DAnswer) (qid : List Char)
    (hpos : ∀ a, Dedup.findAnswer l qid = some a → 0 < a.points) :
    List.Forall₂ Dedup.DemRel l (Dedup.zeroFirst l qid) := by
  induction l with
  | nil => exact List.Forall₂.nil
  | cons x rest ih =>
    by_cases hq : (x.question_id == qid) = true
    · rw [Dedup.zeroFirst, if_pos hq]
      have hx : 0 < x.points :=
        hpos x (by rw [findAnswer_cons, if_pos hq])
      exact List.Forall₂.cons ⟨rfl, rfl, Or.inr ⟨rfl, hx⟩⟩
        (List.forall₂_same.mpr (fun y _ => demRel_refl y))
    · rw [Dedup.zeroFirst, if_neg hq]
      refine List.Forall₂.cons (demRel_refl x) (ih ?_)
      intro a ha
      exact hpos a (by rw [findAnswer_cons, if_neg hq]; exact ha)

/-- The whole dedup loop only demotes, pointwise. -/
theorem dedupGo_demRel (qs : List Dedup.DQuestion) :
    ∀ (seen : List (List Char)) (ans : List Dedup.DAnswer),
      List.Forall₂ Dedup.DemRel ans (Dedup.dedupGo qs seen ans) := by
  induction qs with
  | nil =>
    intro seen ans
    exact List.forall₂_same.mpr (fun y _ => demRel_refl y)
  | cons q qs ih =>
    intro seen ans
    by_cases ht : q.qtype = "text".toList
    · cases hf : Dedup.findAnswer ans q.id with
      | none => rw [dedupGo_cons_none qs seen ans ht hf]; exact ih seen ans
      | some a =>
        by_cases hskip : a.answer_text = [] ∨ a.points ≤ 0
        · rw [dedupGo_cons_inactive qs seen ans ht hf hskip]; exact ih seen ans
        · by_cases hm : Dedup.normText a.answer_text ∈ seen
          · rw [dedupGo_cons_dup qs seen ans ht hf hskip hm]
            refine forall2_demRel_trans (zeroFirst_demRel ans q.id ?_) (ih seen _)
            intro a2 ha2
            rw [hf] at ha2
            obtain rfl := Option.some.inj ha2
            push_neg at hskip
            exact hskip.2
          · rw [dedupGo_cons_fresh qs seen ans ht hf hskip hm]
            exact ih _ ans
    · rw [dedupGo_cons_nontext qs seen ans ht]
      exact ih seen ans

/-- After the loop has run from `seen`, no remaining positive text
answer of a processed question has its normalised text in `seen`: such
an answer would have been zeroed. -/
theorem dedupGo_active_notin (qs : List Dedup.DQuestion) :
    ∀ (seen : List (List Char)) (ans : List Dedup.DAnswer) (q : Dedup.DQuestion),
      q ∈ qs → q.qtype = "text".toList →
      ∀ b, Dedup.findAnswer (Dedup.dedupGo qs seen ans) q.id = some b →
        b.answer_text ≠ [] → 0 < b.points →
        Dedup.normText b.answer_text ∉ seen := by
  induction qs with
  | nil =>
    intro seen ans q hq
    exact absurd hq (List.not_mem_nil q)
  | cons q0 qs ih =>
    intro seen ans q hq ht b hb htext hpos
    by_cases ht0 : q0.qtype = "text".toList
    · cases hf : Dedup.findAnswer ans q0.id with
      | none =>
        rw [dedupGo_cons_none qs seen ans ht0 hf] at hb
        rcases List.mem_cons.mp hq with rfl | hq2
        · rcases findAnswer_rel_back (dedupGo_demRel qs seen ans) hb with ⟨a0, ha0, -⟩
          rw [hf] at ha0
          exact Option.noConfusion ha0
        · exact ih seen ans q hq2 ht b hb htext hpos
      | some a =>
        by_cases hskip : a.answer_text = [] ∨ a.points ≤ 0
        · rw [dedupGo_cons_inactive qs seen ans ht0 hf hskip] at hb
          rcases List.mem_cons.mp hq with rfl | hq2
          · rcases findAnswer_rel_back (dedupGo_demRel qs seen ans) hb with ⟨a0, ha0, hrel⟩
            rw [hf] at ha0
            obtain rfl := Option.some.inj ha0
            rcases demRel_inactive hrel hskip with h | h
            · exact absurd h htext
            · exact absurd hpos (not_lt.mpr h)
          · exact ih seen ans q hq2 ht b hb htext hpos
        · by_cases hm : Dedup.normText a.answer_text ∈ seen
          · rw [dedupGo_cons_dup qs seen ans ht0 hf hskip hm] at hb
            rcases List.mem_cons.mp hq with rfl | hq2
            · rcases findAnswer_rel_back (dedupGo_demRel qs seen _) hb with ⟨a0, ha0, hrel⟩
              rw [findAnswer_zeroFirst_self hf] at ha0
              obtain rfl := Option.some.inj ha0
              rcases hrel.2.2 with h | ⟨h, h2⟩
              · exact absurd hpos (by rw [h]; exact lt_irrefl 0)
              · exact absurd h2 (lt_irrefl 0)
            · exact ih seen _ q hq2 ht b hb htext hpos
          · rw [dedupGo_cons_fresh qs seen ans ht0 hf hskip hm] at hb
            rcases List.mem_cons.mp hq with rfl | hq2
            · rcases findAnswer_rel_back (dedupGo_demRel qs _ ans) hb with ⟨a0, ha0, hrel⟩
              rw [hf] at ha0
              obtain rfl := Option.some.inj ha0
              rw [hrel.2.1]
              exact hm
            · intro hx
              exact ih _ ans q hq2 ht b hb htext hpos (List.mem_cons_of_mem _ hx)
    · rw [dedupGo_cons_nontext qs seen ans ht0] at hb
      rcases List.mem_cons.mp hq with rfl | hq2
      · exact absurd ht ht0
      · exact ih seen ans q hq2 ht b hb htext hpos

/-- Demotion is invariant under `zeroFirst` of a positively-scored
looked-up row, as used to transport the side condition of
`dedupGo_seen_congr`. -/
theorem zeroFirst_demRel_of_active (ans : List Dedup.DAnswer) (qid : List Char)
    {a : Dedup.DAnswer} (hf : Dedup.findAnswer ans qid = some a)
    (hpos : 0 < a.points) :
    List.Forall₂ Dedup.DemRel ans (Dedup.zeroFirst ans qid) := by
  refine zeroFirst_demRel ans qid ?_
  intro a2 ha2
  rw [hf] at ha2
  obtain rfl := Option.some.inj ha2
  exact hpos

/-- A seen entry that no positive text answer of the remaining questions
carries can be dropped without changing the result of the loop. -/
theorem dedupGo_seen_congr (qs : List Dedup.DQuestion) :
    ∀ (n : List Char) (seen₁ seen₂ : List (List Char)) (ans : List Dedup.DAnswer),
      (∀ x, x ∈ seen₁ ↔ (x ∈ seen₂ ∨ x = n)) →
      (∀ q ∈ qs, q.qtype = "text".toList →
        ∀ a, Dedup.findAnswer ans q.id = some a →
          a.answer_text ≠ [] → 0 < a.points → Dedup.normText a.answer_text ≠ n) →
      Dedup.dedupGo qs seen₁ ans = Dedup.dedupGo qs seen₂ ans := by
  induction qs with
  | nil => intro n seen₁ seen₂ ans hseen hq; rfl
  | cons q0 qs ih =>
    intro n seen₁ seen₂ ans hseen hq
    have hqtail : ∀ q ∈ qs, q.qtype = "text".toList →
        ∀ a, Dedup.findAnswer ans q.id = some a →
          a.answer_text ≠ [] → 0 < a.points → Dedup.normText a.answer_text ≠ n :=
      fun q hq2 => hq q (List.mem_cons_of_mem _ hq2)
    by_cases ht0 : q0.qtype = "text".toList
    · cases hf : Dedup.findAnswer ans q0.id with
      | none =>
        rw [dedupGo_cons_none qs seen₁ ans ht0 hf,
          dedupGo_cons_none qs seen₂ ans ht0 hf]
        exact ih n seen₁ seen₂ ans hseen hqtail
      | some a =>
        by_cases hskip : a.answer_text = [] ∨ a.points ≤ 0
        · rw [dedupGo_cons_inactive qs seen₁ ans ht0 hf hskip,
            dedupGo_cons_inactive qs seen₂ ans ht0 hf hskip]
          exact ih n seen₁ seen₂ ans hseen hqtail
        · have hs2 := hskip
          push_neg at hs2
          have hne : Dedup.normText a.answer_text ≠ n :=
            hq q0 (List.mem_cons_self q0 qs) ht0 a hf hs2.1 hs2.2
          have hmem : Dedup.normText a.answer_text ∈ seen₁ ↔
              Dedup.normText a.answer_text ∈ seen₂ := by
            rw [hseen]
            constructor
            · rintro (h | h)
              · exact h
              · exact absurd h hne
            · exact Or.inl
          by_cases hm : Dedup.normText a.answer_text ∈ seen₂
          · rw [dedupGo_cons_dup qs seen₁ ans ht0 hf hskip (hmem.mpr hm),
              dedupGo_cons_dup qs seen₂ ans ht0 hf hskip hm]
            refine ih n seen₁ seen₂ _ hseen ?_
            intro q hq2 htq a2 ha2 htext2 hpos2
            rcases findAnswer_rel_back (zeroFirst_demRel_of_active ans q0.id hf hs2.2)
              ha2 with ⟨a0, ha0, hrel⟩
            rcases hrel.2.2 with h | ⟨h, -⟩
            · have htext0 : a0.answer_text ≠ [] := by
                rw [← hrel.2.1]; exact htext2
              have hpos0 : 0 < a0.points := by rw [← h]; exact hpos2
              rw [hrel.2.1]
              exact hqtail q hq2 htq a0 ha0 htext0 hpos0
            · exact absurd hpos2 (by rw [h]; exact lt_irrefl 0)
          · rw [dedupGo_cons_fresh qs seen₁ ans ht0 hf hskip
              (fun hx => hm (hmem.mp hx)),
              dedupGo_cons_fresh qs seen₂ ans ht0 hf hskip hm]
            refine ih n _ _ ans ?_ hqtail
            intro x
            rw [List.mem_cons, List.mem_cons, hseen x]
            tauto
    · rw [dedupGo_cons_nontext qs seen₁ ans ht0,
        dedupGo_cons_nontext qs seen₂ ans ht0]
      exact ih n seen₁ seen₂ ans hseen hqtail

/-- Idempotence of the dedup loop from any starting seen set. -/
theorem dedupGo_idem (qs : List Dedup.DQuestion) :
    ∀ (seen : List (List Char)) (ans : List Dedup.DAnswer),
      Dedup.dedupGo qs seen (Dedup.dedupGo qs seen ans) =
        Dedup.dedupGo qs seen ans := by
  induction qs with
  | nil => intro seen ans; rfl
  | cons q0 qs ih =>
    intro seen ans
    by_cases ht0 : q0.qtype = "text".toList
    · cases hf : Dedup.findAnswer ans q0.id with
      | none =>
        rw [dedupGo_cons_none qs seen ans ht0 hf]
        have hf2 : Dedup.findAnswer (Dedup.dedupGo qs seen ans) q0.id = none := by
          cases hr : Dedup.findAnswer (Dedup.dedupGo qs seen ans) q0.id with
          | none => rfl
          | some b =>
            rcases findAnswer_rel_back (dedupGo_demRel qs seen ans) hr with ⟨a0, ha0, -⟩
            rw [hf] at ha0
            exact Option.noConfusion ha0
        rw [dedupGo_cons_none qs seen _ ht0 hf2]
        exact ih seen ans
      | some a =>
        by_cases hskip : a.answer_text = [] ∨ a.points ≤ 0
        · rw [dedupGo_cons_inactive qs seen ans ht0 hf hskip]
          rcases findAnswer_rel_fwd (dedupGo_demRel qs seen ans) hf with ⟨b, hb, hrel⟩
          rw [dedupGo_cons_inactive qs seen _ ht0 hb (demRel_inactive hrel hskip)]
          exact ih seen ans
        · have hs2 := hskip
          push_neg at hs2
          by_cases hm : Dedup.normText a.answer_text ∈ seen
          · rw [dedupGo_cons_dup qs seen ans ht0 hf hskip hm]
            have hz := findAnswer_zeroFirst_self hf
            rcases findAnswer_rel_fwd
              (dedupGo_demRel qs seen (Dedup.zeroFirst ans q0.id)) hz with ⟨b, hb, hrel⟩
            have hbskip : b.answer_text = [] ∨ b.points ≤ 0 :=
              demRel_inactive hrel (Or.inr (le_refl 0))
            rw [dedupGo_cons_inactive qs seen _ ht0 hb hbskip]
            exact ih seen _
          · rw [dedupGo_cons_fresh qs seen ans ht0 hf hskip hm]
            rcases findAnswer_rel_fwd
              (dedupGo_demRel qs (Dedup.normText a.answer_text :: seen) ans) hf with
              ⟨b, hb, hrel⟩
            rcases hrel.2.2 with hp | ⟨hp, -⟩
            · have hbskip : ¬(b.answer_text = [] ∨ b.points ≤ 0) := by
                push_neg
                constructor
                · rw [hrel.2.1]; exact hs2.1
                · rw [hp]; exact hs2.2
              have hnormb : Dedup.normText b.answer_text =
                  Dedup.normText a.answer_text := by rw [hrel.2.1]
              rw [dedupGo_cons_fresh qs seen _ ht0 hb hbskip
                (by rw [hnormb]; exact hm), hnormb]
              exact ih _ ans
            · have hbskip : b.answer_text = [] ∨ b.points ≤ 0 := Or.inr (le_of_eq hp)
              rw [dedupGo_cons_inactive qs seen _ ht0 hb hbskip]
              have hseen1 : ∀ x, x ∈ Dedup.normText a.answer_text :: seen ↔
                  (x ∈ seen ∨ x = Dedup.normText a.answer_text) := by
                intro x
                rw [List.mem_cons]
                tauto
              have hact : ∀ q ∈ qs, q.qtype = "text".toList →
                  ∀ a2, Dedup.findAnswer
                      (Dedup.dedupGo qs (Dedup.normText a.answer_text :: seen) ans)
                      q.id = some a2 →
                    a2.answer_text ≠ [] → 0 < a2.points →
                    Dedup.normText a2.answer_text ≠ Dedup.normText a.answer_text := by
                intro q hq2 htq a2 ha2 htext2 hpos2 heq
                exact dedupGo_active_notin qs (Dedup.normText a.answer_text :: seen)
                  ans q hq2 htq a2 ha2 htext2 hpos2
                  (heq ▸ List.mem_cons_self _ _)
              have hcongr := dedupGo_seen_congr qs (Dedup.normText a.answer_text)
                (Dedup.normText a.answer_text :: seen) seen
                (Dedup.dedupGo qs (Dedup.normText a.answer_text :: seen) ans)
                hseen1 hact
              rw [← hcongr]
              exact ih _ ans
    · rw [dedupGo_cons_nontext qs seen ans ht0,
        dedupGo_cons_nontext qs seen _ ht0]
      exact ih seen ans

/-! Claim theorems. -/

/-- C1: for every team, the aggregated leaderboard total equals the sum
of answer points plus bonus points minus penalty points plus the custom
score values minus the floor of a tenth of the tab-away seconds. -/
theorem c1_leaderboard_total_closed_form (t : Agg.TeamRec) :
    Agg.leaderboardTotal t =
      (t.answers.map (fun a => a.points)).sum +
        (t.answers.map (fun a => a.bonus_points)).sum -
        (t.answers.map (fun a => a.penalty_points)).sum +
        (t.custom_scores.map (fun kv => kv.2)).sum -
        Nat.floor ((t.tab_away_seconds : ℚ) / 10) := by
  have h10 : ((10 : ℚ)) = ((10 : ℕ) : ℚ) := by norm_num
  simp only [Agg.leaderboardTotal, Agg.tab_penalty_points]
  rw [h10, Nat.floor_div_nat, Nat.floor_natCast]

/-- C2: settlement of a stored betting answer sets the points to
`stake * multiplier - stake` floored at 0 when the choice places at an
index with a configured multiplier, to `-stake` when it places without a
multiplier or does not place, and leaves the row untouched when the
stored bet cannot be parsed. -/
theorem c2_settlement_cases (mult : List ℚ) (results : List (List Char))
    (a : Betting.BetAnswer) (bet : Betting.Bet) :
    (a.payload = none → Betting.settleAnswer mult results a = a) ∧
      (a.payload = some bet → bet.choice ∈ results →
        ∀ h : results.indexOf bet.choice < mult.length,
          (Betting.settleAnswer mult results a).points =
            max (bet.bet_amount * mult.get ⟨results.indexOf bet.choice, h⟩ -
              bet.bet_amount) 0) ∧
      (a.payload = some bet → bet.choice ∈ results →
        mult.length ≤ results.indexOf bet.choice →
        (Betting.settleAnswer mult results a).points = -bet.bet_amount) ∧
      (a.payload = some bet → bet.choice ∉ results →
        (Betting.settleAnswer mult results a).points = -bet.bet_amount) := by
  refine ⟨fun h => ?_, fun hp hin h => ?_, fun hp hin h => ?_, fun hp hnin => ?_⟩
  · simp [Betting.settleAnswer, h]
  · simp only [Betting.settleAnswer, hp]
    rw [if_pos hin, dif_pos h]
    exact ite_neg_zero_eq_max _
  · simp [Betting.settleAnswer, hp, hin, dif_neg (not_lt.mpr h)]
  · simp [Betting.settleAnswer, hp, hnin]

/-- C2 witness: the spec scenario — multipliers `[3,2,1]`, a stake of 2
on Fox, finish order Fox, Hare, Owl — settles to 4 points. -/
theorem c2_settlement_cases_witness :
    (Betting.settleAnswer fxMult fxResults fxBetAnswer).points = 4 := by
  have h := (c2_settlement_cases fxMult fxResults fxBetAnswer ⟨2, "Fox".toList⟩).2.1
    rfl (by decide) (by decide)
  rw [h]
  show max ((2 : ℚ) * 3 - 2) 0 = 4
  rw [max_eq_left (by norm_num)]
  norm_num

/-- C4: betting settlement is idempotent — settling twice with the same
finish order equals settling once — and settling with a different finish
order fully overwrites the prior settlement. -/
theorem c4_settlement_idempotent_overwrites (mult : List ℚ)
    (r1 r2 : List (List Char)) (answers : List Betting.BetAnswer) :
    Betting.settleAnswers mult r1 (Betting.settleAnswers mult r1 answers) =
        Betting.settleAnswers mult r1 answers ∧
      Betting.settleAnswers mult r2 (Betting.settleAnswers mult r1 answers) =
        Betting.settleAnswers mult r2 answers :=
  ⟨settleAnswers_comp mult r1 r1 answers, settleAnswers_comp mult r1 r2 answers⟩

/-- C5 counterexample: the claim's only-if direction fails — the
expression `+` is not blank, yet validating the empty answer against it
returns true, because both of its AND terms are empty after splitting
and empty terms are skipped. -/
theorem c5_counterexample :
    TextVal.validate_text_answer TextVal.reNone [] ("+".toList) = true ∧
      pyStrip ("+".toList) ≠ [] := by decide

/-- C5 (amended): validating the empty answer against an empty or blank
expression returns true; the converse of the claim fails (see the
counterexample). -/
theorem c5_blank_accepts_empty (re : TextVal.ReEngine) (expr : List Char)
    (h : pyStrip expr = []) :
    TextVal.validate_text_answer re [] expr = true := by
  simp [TextVal.validate_text_answer, h]

/-- C5 witness: the blank expression of a single space accepts the empty
answer. -/
theorem c5_blank_accepts_empty_witness :
    pyStrip (" ".toList) = [] ∧
      TextVal.validate_text_answer TextVal.reNone [] (" ".toList) = true :=
  ⟨by decide, c5_blank_accepts_empty TextVal.reNone (" ".toList) (by decide)⟩

/-- C8: a submission to a closed round leaves the state unchanged (no
answer rows written, no permission consumed), never succeeds, and — for
a team of the round's game — is rejected with the round-closed outcome,
regardless of any resubmit permission in the state. -/
theorem c8_closed_round_rejected (re : TextVal.ReEngine) (evalMath : Grader.MathEval)
    (round : Submit.SRound) (team : Submit.STeam) (form : Submit.Form)
    (st : Submit.SState) (h : round.is_open = false) :
    (Submit.submit_round re evalMath round team form st).2 = st ∧
      (Submit.submit_round re evalMath round team form st).1 ≠ .ok ∧
      (team.game_id = round.game_id →
        Submit.submit_round re evalMath round team form st = (.roundClosed, st)) := by
  by_cases hg : team.game_id = round.game_id <;>
    simp [Submit.submit_round, h, hg]

/-- C8 witness: team 5 of game 1 submitting to the closed round 1 while
holding a resubmit permission for it is rejected and the state — answer
rows and permission — is untouched. -/
theorem c8_closed_round_rejected_witness :
    (Submit.submit_round TextVal.reNone evalMathZero fxClosedRound fxTeam fxForm
        fxState).2 = fxState ∧
      (Submit.submit_round TextVal.reNone evalMathZero fxClosedRound fxTeam fxForm
        fxState).1 ≠ .ok ∧
      (fxTeam.game_id = fxClosedRound.game_id →
        Submit.submit_round TextVal.reNone evalMathZero fxClosedRound fxTeam fxForm
          fxState = (.roundClosed, fxState)) :=
  c8_closed_round_rejected TextVal.reNone evalMathZero fxClosedRound fxTeam fxForm
    fxState rfl

/-- C6: the deduplication pass is idempotent — running it twice over the
same round and team yields the same per-answer point values as running
it once — and it only demotes: no answer's points ever increase. -/
theorem c6_dedup_idempotent_only_demotes (questions : List Dedup.DQuestion)
    (answers : List Dedup.DAnswer) :
    Dedup.apply_round_deduplication questions
        (Dedup.apply_round_deduplication questions answers) =
      Dedup.apply_round_deduplication questions answers ∧
      List.Forall₂ (fun a b => b.points ≤ a.points) answers
        (Dedup.apply_round_deduplication questions answers) := by
  refine ⟨dedupGo_idem questions [] answers, ?_⟩
  refine List.Forall₂.imp ?_ (dedupGo_demRel questions [] answers)
  intro a b hab
  rcases hab.2.2 with h | ⟨h, hp⟩
  · exact le_of_eq h
  · exact h ▸ hp.le

/-- C7 counterexample: the claim fails for a configuration whose
10%-tier pays more than its exact tier — the exact submission 100 earns
1, while the submission 105, at a strictly larger relative error, earns
4. -/
theorem c7_counterexample :
    Grader.estimatePoints fxEstInverted ("100".toList) = 1 ∧
      Grader.estimatePoints fxEstInverted ("105".toList) = 4 ∧
      |(100 : ℚ) - 100| / |(100 : ℚ)| ≤ |(105 : ℚ) - 100| / |(100 : ℚ)| := by
  refine ⟨?_, ?_, by norm_num⟩
  · rw [estimatePoints_eq_tier fxEstInverted 100 100 rfl (by norm_num) ("100".toList) rfl]
    norm_num [Grader.estimateTier, fxEstInverted]
  · rw [estimatePoints_eq_tier fxEstInverted 100 105 rfl (by norm_num) ("105".toList) rfl]
    norm_num [Grader.estimateTier, fxEstInverted]

/-- C7 (amended): for every estimate configuration whose tier values
descend (`points_exact ≥ points_10 ≥ points_20 ≥ points_30 ≥ 0`, as the
defaults 4/3/2/1 do) and whose correct value is nonzero, the awarded
score is a non-increasing step function of the relative error of the
parsed submission, and it is 0 beyond a relative error of 30%.  Without
the descending-tier hypothesis the claim is false (see the
counterexample). -/
theorem c7_estimate_monotone_amended (q : Grader.QuestionConfig) (c x y : ℚ)
    (hq : q.estimate_correct = some c) (hc : c ≠ 0)
    (h30 : q.points_30 ≤ q.points_20) (h20 : q.points_20 ≤ q.points_10)
    (h10 : q.points_10 ≤ q.points_exact) (h0 : 0 ≤ q.points_30)
    (sx sy : List Char) (hx : parseFloat sx = some x) (hy : parseFloat sy = some y)
    (hle : |x - c| / |c| ≤ |y - c| / |c|) :
    Grader.estimatePoints q sy ≤ Grader.estimatePoints q sx ∧
      ((30 : ℚ) / 100 < |y - c| / |c| → Grader.estimatePoints q sy = 0) := by
  rw [estimatePoints_eq_tier q c x hq hc sx hx, estimatePoints_eq_tier q c y hq hc sy hy]
  exact ⟨estimateTier_mono q h30 h20 h10 h0 _ _
      (div_nonneg (abs_nonneg _) (abs_nonneg _)) hle,
    fun hb => estimateTier_beyond q _ hb⟩

/-- C7 witness: the spec scenario — correct value 100, default tiers
4/3/2/1 — gives the submission 135 (35% off) no more than the submission
110 (10% off), and 0 once past the 30% tier. -/
theorem c7_estimate_monotone_amended_witness :
    (Grader.estimatePoints fxEstDefault ("135".toList) ≤
        Grader.estimatePoints fxEstDefault ("110".toList) ∧
      ((30 : ℚ) / 100 < |(135 : ℚ) - 100| / |(100 : ℚ)| →
        Grader.estimatePoints fxEstDefault ("135".toList) = 0)) ∧
      Grader.estimatePoints fxEstDefault ("110".toList) = 3 ∧
      Grader.estimatePoints fxEstDefault ("135".toList) = 0 := by
  refine ⟨c7_estimate_monotone_amended fxEstDefault 100 110 135 rfl (by norm_num)
      (by norm_num [fxEstDefault]) (by norm_num [fxEstDefault])
      (by norm_num [fxEstDefault]) (by norm_num [fxEstDefault])
      ("110".toList) ("135".toList) rfl rfl (by norm_num), ?_, ?_⟩
  · rw [estimatePoints_eq_tier fxEstDefault 100 110 rfl (by norm_num) ("110".toList) rfl]
    norm_num [Grader.estimateTier, fxEstDefault]
  · rw [estimatePoints_eq_tier fxEstDefault 100 135 rfl (by norm_num) ("135".toList) rfl]
    norm_num [Grader.estimateTier, fxEstDefault]

/-- C9 counterexample: with a closed container round above a closed,
submitted leaf round, every leaf round is closed and submitted — the
claim demands game over — yet the navigator reports the waiting state,
because it requires every round, containers included, to be closed and
submitted. -/
theorem c9_counterexample :
    Nav.nextQuestions false fxNavRounds fxNavAnswered fxNavResub = .waiting ∧
      Nav.leafGameOverCond fxNavRounds fxNavAnswered = true := by decide

/-- C9 (amended): when the game is not paused and the round ids are
distinct (as database primary keys are), the navigator reports game over
rather than a waiting state exactly when at least one round exists,
every round — containers included, not only leaf rounds — is closed,
and the team has submitted to every round, containers included. -/
theorem c9_nav_gameover_amended (rounds : List Nav.NRound) (answered resub : Nat → Bool)
    (hnd : (rounds.map (fun r => r.id)).Nodup) :
    Nav.nextQuestions false rounds answered resub = .gameOver ↔
      (rounds ≠ [] ∧ (∀ r ∈ rounds, r.is_open = false) ∧
        ∀ r ∈ rounds, answered r.id = true) := by
  unfold Nav.nextQuestions
  simp only [Bool.false_eq_true, if_false]
  cases hfind : rounds.find? (fun r =>
      !Nav.hasChildrenN rounds r && r.is_open &&
        (!(Nav.submittedRoundIds rounds answered).contains r.id || resub r.id)) with
  | some r =>
    simp only []
    constructor
    · intro h; exact Nav.Outcome.noConfusion h
    · rintro ⟨-, hclosed, -⟩
      have hmem := List.mem_of_find?_eq_some hfind
      have hpred := List.find?_some hfind
      rw [hclosed r hmem] at hpred
      simp at hpred
  | none =>
    simp only []
    constructor
    · intro h
      by_cases hcond : rounds.all (fun r => !r.is_open) = true ∧
          rounds.length ≤ (Nav.submittedRoundIds rounds answered).length ∧
          0 < rounds.length
      · refine ⟨List.length_pos.mp hcond.2.2, ?_, ?_⟩
        · intro r hr
          have := List.all_eq_true.mp hcond.1 r hr
          simpa using this
        · exact (submittedRoundIds_full rounds answered hnd).mp hcond.2.1
      · rw [if_neg hcond] at h
        exact absurd h (by intro hw; exact Nav.Outcome.noConfusion hw)
    · rintro ⟨hne, hclosed, hsub⟩
      rw [if_pos]
      refine ⟨List.all_eq_true.mpr (fun r hr => by simp [hclosed r hr]), ?_, ?_⟩
      · exact (submittedRoundIds_full rounds answered hnd).mpr hsub
      · exact List.length_pos.mpr hne

/-- C9 witness: a single closed, submitted leaf round makes the
navigator report game over, matching the amended condition. -/
theorem c9_nav_gameover_amended_witness :
    (Nav.nextQuestions false [⟨1, none, false⟩] (fun _ => true) (fun _ => false) =
        .gameOver ↔
      (([⟨1, none, false⟩] : List Nav.NRound) ≠ [] ∧
        (∀ r ∈ ([⟨1, none, false⟩] : List Nav.NRound), r.is_open = false) ∧
        ∀ r ∈ ([⟨1, none, false⟩] : List Nav.NRound), (fun _ => true) r.id = true)) ∧
      Nav.nextQuestions false [⟨1, none, false⟩] (fun _ => true) (fun _ => false) =
        .gameOver :=
  ⟨c9_nav_gameover_amended [⟨1, none, false⟩] (fun _ => true) (fun _ => false)
      (by decide), by decide⟩

/-- C3: the API leaderboard route hides the scores of a team that has
submitted to the final leaf round even while that round is still open,
contradicting its own docstring, the claim, and the sibling scoreboard
route, which both require the final round to be closed. -/
theorem c3_api_hides_while_final_round_open :
    Visibility.scores_hidden_api false fxVRounds fxHasAnswer (some 7) = true ∧
      Visibility.scoreboard_hidden false fxVRounds fxHasAnswer (some 7) = false ∧
      (fxVRounds.map (fun r => r.is_open)) = [true] := by decide

/-- C10: when a pattern term fails to compile as a regular expression,
matching falls back to a case-insensitive literal substring test: the
term matches the answer exactly when the lowercased term occurs inside
the lowercased answer. -/
theorem c10_invalid_regex_substring (re : TextVal.ReEngine) (text pat : List Char)
    (h : re pat = none) :
    TextVal.matchPattern re text pat =
      containsSub (toLowerStr pat) (toLowerStr text) := by
  simp [TextVal.matchPattern, h]

/-- C10 witness: the invalid pattern of an unbalanced parenthesis falls
back to the substring test and matches case-insensitively. -/
theorem c10_invalid_regex_substring_witness :
    TextVal.reNone ("(world".toList) = none ∧
      TextVal.matchPattern TextVal.reNone ("Hello(World".toList) ("(world".toList) =
        containsSub (toLowerStr ("(world".toList)) (toLowerStr ("Hello(World".toList)) ∧
      containsSub (toLowerStr ("(world".toList)) (toLowerStr ("Hello(World".toList)) = true :=
  ⟨rfl, c10_invalid_regex_substring TextVal.reNone ("Hello(World".toList)
    ("(world".toList) rfl, by decide⟩

end QuizApp
